import Mathlib

/-!
# caddy-ftp: the HTTP-to-FTP bridge of `ftp.go`

A shallow embedding of `HTTP4Ftp.Validate` and `HTTP4Ftp.ServeHTTP`.

The handler talks to three collaborators that live outside the repository:
the FTP client library (`ftp.Dial`, `ServerConn.Login`, `ServerConn.Retr`,
`Response.Close`), the host's `http.ResponseWriter`, and `io.Copy` /
`fmt.Errorf` of the standard library.  They are modelled as an explicit
environment:

* every call made on the FTP session is appended to a log of `FtpOp`s and its
  outcome is read from an `FtpEnv` (functions of the call's arguments);
* every call made on the response sink is appended to a log of `SinkCall`s;
  the sink also keeps the state the documented `http.ResponseWriter` contract
  describes (committed status, header snapshot taken at the commit, body
  bytes accepted);
* Go's `error` interface value is `Option GoError`, with `none` for `nil`.
-/

namespace CaddyFtp

/-! ## Values -/

abbrev Byte := UInt8

/-- Bytes of a Go string literal, as in the conversion `[]byte("...")`. -/
def bytesOf (s : String) : List Byte := s.toUTF8.data.toList

/-- A non-nil Go error value.  `errorString` is what `errors.New` builds,
`wrapError` is what `fmt.Errorf` builds for a format with one `%w` verb. -/
inductive GoError where
  | errorString (s : String)
  | wrapError (msg : String) (err : GoError)
  deriving DecidableEq, Repr

/-- Method `Error()` of an error value. -/
def GoError.Error : GoError → String
  | .errorString s => s
  | .wrapError msg _ => msg

/-- Method `Unwrap()` of an error value (`none` when the value wraps nothing). -/
def GoError.Unwrap : GoError → Option GoError
  | .errorString _ => none
  | .wrapError _ err => some err

/-- Model of `fmt.Errorf(context + "%w", err)`: the message is the context
followed by `err.Error()`, and the result unwraps to `err`. -/
def fmt.Errorf (context : String) (err : GoError) : GoError :=
  .wrapError (context ++ err.Error) err

/-- Type `time.Duration`: a signed count of nanoseconds. -/
abbrev time.Duration := Int

/-- Constant `time.Second`. -/
def time.Second : time.Duration := 1000000000

/-- Constant `http.StatusOK`. -/
def http.StatusOK : Nat := 200

/-- Constant `http.StatusNotFound`. -/
def http.StatusNotFound : Nat := 404

/-! ## Configuration -/

/-- The handler's configuration (`type HTTP4Ftp struct`). -/
structure HTTP4Ftp where
  Addr : String
  User : String
  Pass : String
  DialTimeout : time.Duration
  DisabledEPSV : Bool
  DisabledMLSD : Bool
  DisableUTF8 : Bool
  deriving DecidableEq, Repr

/-- `func (h4f *HTTP4Ftp) Validate() (err error)`: the receiver after the call
and the returned error. -/
def HTTP4Ftp.Validate (h4f : HTTP4Ftp) : HTTP4Ftp × Option GoError :=
  let h4f := if h4f.DialTimeout = 0 then { h4f with DialTimeout := 5 * time.Second } else h4f
  (h4f, none)

/-! ## The FTP side -/

/-- The dial options the handler passes to `ftp.Dial`. -/
inductive ftp.DialOption where
  | DialWithDisabledEPSV (disabled : Bool)
  | DialWithDisabledMLSD (disabled : Bool)
  | DialWithDisabledUTF8 (disabled : Bool)
  | DialWithTimeout (timeout : time.Duration)
  deriving DecidableEq, Repr

/-- The retrieved object stream (`*ftp.Response`), described by what its
`Read` method returns over time: one entry of `reads` per call that returns
data with a nil error (an empty entry is a call that returns no byte and a nil
error), and after them `io.EOF` when `failure` is `none`, or the error `e`
when `failure` is `some (e, unread)`, where `unread` holds the bytes of the
remote file that were never delivered.  A call that returns data together
with an error is the data entry followed by the error: the copy loop writes
the data before it looks at the error. -/
structure ftp.Response where
  reads : List (List Byte)
  failure : Option (GoError × List Byte)
  deriving DecidableEq, Repr

/-- The content of the remote file the stream is bound to. -/
def ftp.Response.content (resp : ftp.Response) : List Byte :=
  resp.reads.flatten ++ (match resp.failure with
    | none => []
    | some (_, unread) => unread)

/-- One operation on the FTP client library, in the order the handler (or
anyone else holding the session) performs them.  `Quit` is the library's
session release, `ServerConn.Quit`; `Close` is `Response.Close`. -/
inductive FtpOp where
  | Dial (addr : String) (options : List ftp.DialOption)
  | Login (user password : String)
  | Retr (path : String)
  | Close
  | Quit
  deriving DecidableEq, Repr

/-- The FTP environment of one request: the outcome of each library call as a
function of its arguments (`none` is a nil error). -/
structure FtpEnv where
  Dial : String → List ftp.DialOption → Option GoError
  Login : String → String → Option GoError
  Retr : String → Except GoError ftp.Response

/-! ## The response sink -/

/-- One call on the response sink. -/
inductive SinkCall where
  | WriteHeader (statusCode : Nat)
  | HeaderAdd (key value : String)
  | Write (p : List Byte)
  deriving DecidableEq, Repr

/-- What one `Write` call on the sink returns. -/
structure WriteResult where
  n : Int
  err : Option GoError
  deriving DecidableEq, Repr

/-- The host's `http.ResponseWriter`.  `calls` logs every call in order.
`header` is the map `Header()` returns.  `status` and `sent` are the status
and the header set committed by the first `WriteHeader` (or by the first
`Write` when no `WriteHeader` came before it); later changes to `header` do
not reach `sent`.  `body` holds the bytes accepted so far.  `script` gives the
results of the coming `Write` calls; once it is used up every `Write` accepts
all its bytes and returns a nil error. -/
structure http.ResponseWriter where
  calls : List SinkCall
  header : List (String × String)
  status : Option Nat
  sent : List (String × String)
  body : List Byte
  script : List WriteResult
  deriving DecidableEq, Repr

/-- Commit of status and headers: it happens once, the first time. -/
def http.ResponseWriter.commit (w : http.ResponseWriter) (statusCode : Nat) :
    http.ResponseWriter :=
  match w.status with
  | some _ => w
  | none => { w with status := some statusCode, sent := w.header }

/-- Method `WriteHeader(statusCode)`. -/
def http.ResponseWriter.WriteHeader (w : http.ResponseWriter) (statusCode : Nat) :
    http.ResponseWriter :=
  { w.commit statusCode with calls := w.calls ++ [.WriteHeader statusCode] }

/-- Call `Header().Add(key, value)`. -/
def http.ResponseWriter.HeaderAdd (w : http.ResponseWriter) (key value : String) :
    http.ResponseWriter :=
  { w with calls := w.calls ++ [.HeaderAdd key value], header := w.header ++ [(key, value)] }

/-- Method `Write(p)`: the result of the call and the sink after it.  The sink
accepts the first `n` bytes of `p`, where `n` is the count it returns. -/
def http.ResponseWriter.Write (w : http.ResponseWriter) (p : List Byte) :
    WriteResult × http.ResponseWriter :=
  let w := w.commit http.StatusOK
  let res : WriteResult := match w.script with
    | [] => ⟨p.length, none⟩
    | r :: _ => r
  (res, { w with calls := w.calls ++ [.Write p],
                 body := w.body ++ p.take res.n.toNat,
                 script := w.script.tail })

/-! ## io.Copy -/

/-- Sentinel `io.ErrShortWrite`. -/
def io.ErrShortWrite : GoError := .errorString "short write"

/-- Sentinel `io.errInvalidWrite`. -/
def io.errInvalidWrite : GoError := .errorString "invalid write result"

/-- The part of one iteration of the copy loop that runs when `Read` returned
`nr > 0` bytes: write them, and report the error that ends the loop, if any. -/
def io.copyWrite (dst : http.ResponseWriter) (p : List Byte) :
    Option GoError × http.ResponseWriter :=
  if p.length > 0 then
    let (res, dst) := dst.Write p
    let nr : Int := p.length
    let ew := if res.n < 0 ∨ nr < res.n then
        (match res.err with
          | none => some io.errInvalidWrite
          | some e => some e)
      else res.err
    let nw := if res.n < 0 ∨ nr < res.n then 0 else res.n
    match ew with
    | some e => (some e, dst)
    | none => if nr ≠ nw then (some io.ErrShortWrite, dst) else (none, dst)
  else (none, dst)

/-- The copy loop of `io.Copy` over the reads the source still has to offer:
each read with data is written to the sink, the first write error or short
write ends the loop with that error, `io.EOF` from the source ends it with a
nil error, any other read error ends it with that error.  The shortcuts
`io.Copy` takes through `WriterTo` or `ReaderFrom` have the same contract. -/
def io.copyLoop (failure : Option (GoError × List Byte)) :
    List (List Byte) → http.ResponseWriter → Option GoError × http.ResponseWriter
  | [], dst =>
    match failure with
    | none => (none, dst)
    | some (e, _) => (some e, dst)
  | p :: reads, dst =>
    match io.copyWrite dst p with
    | (some e, dst) => (some e, dst)
    | (none, dst) => io.copyLoop failure reads dst

/-- Model of `io.Copy(dst, src)`, without the byte count, which the handler
discards. -/
def io.Copy (dst : http.ResponseWriter) (src : ftp.Response) :
    Option GoError × http.ResponseWriter :=
  io.copyLoop src.failure src.reads dst

/-! ## The handler -/

/-- The part of `*http.Request` the handler reads: `r.URL.Path`. -/
structure Request where
  Path : String
  deriving DecidableEq, Repr

/-- What one run of the handler leaves behind: the returned error, the
response sink, and the operations performed on the FTP library. -/
structure Outcome where
  err : Option GoError
  w : http.ResponseWriter
  ftp : List FtpOp
  deriving DecidableEq, Repr

/-- The option list of the `ftp.Dial` call. -/
def HTTP4Ftp.dialOptions (h4f : HTTP4Ftp) : List ftp.DialOption :=
  [.DialWithDisabledEPSV h4f.DisabledEPSV,
   .DialWithDisabledMLSD h4f.DisabledMLSD,
   .DialWithDisabledUTF8 h4f.DisableUTF8,
   .DialWithTimeout h4f.DialTimeout]

/-- `func (h4f HTTP4Ftp) ServeHTTP(w, r, next) (err error)`.  The argument
`next` is never used by the body and is left out.  The named result `err` is
what every `return` hands back. -/
def HTTP4Ftp.ServeHTTP (h4f : HTTP4Ftp) (env : FtpEnv) (w : http.ResponseWriter)
    (r : Request) : Outcome :=
  let path := r.Path
  let log := [FtpOp.Dial h4f.Addr h4f.dialOptions]
  match env.Dial h4f.Addr h4f.dialOptions with
  | some err => ⟨some (fmt.Errorf "dial ftp server error: " err), w, log⟩
  | none =>
    let (err, log) :=
      if h4f.User ≠ "" then
        (env.Login h4f.User h4f.Pass, log ++ [FtpOp.Login h4f.User h4f.Pass])
      else (none, log)
    match err with
    | some err => ⟨some (fmt.Errorf "ftp login error: " err), w, log⟩
    | none =>
      let log := log ++ [FtpOp.Retr path]
      match env.Retr path with
      | .error err =>
        let w := w.WriteHeader http.StatusNotFound
        let w := (w.Write (bytesOf "Not Found")).2
        ⟨some err, w, log⟩
      | .ok resp =>
        let w := w.WriteHeader http.StatusOK
        let w := w.HeaderAdd "Content-Type" "application/octet-stream"
        let (err, w) := io.Copy w resp
        -- deferred resp.Close()
        ⟨err, w, log ++ [FtpOp.Close]⟩

/-! ## Observations on the logs -/

/-- The status codes passed to `WriteHeader`, in call order. -/
def statusWrites : List SinkCall → List Nat
  | [] => []
  | .WriteHeader c :: cs => c :: statusWrites cs
  | _ :: cs => statusWrites cs

/-- The headers added through `Header().Add`, in call order. -/
def headerAdds : List SinkCall → List (String × String)
  | [] => []
  | .HeaderAdd k v :: cs => (k, v) :: headerAdds cs
  | _ :: cs => headerAdds cs

/-- The byte slices passed to `Write`, in call order. -/
def bodyWrites : List SinkCall → List (List Byte)
  | [] => []
  | .Write p :: cs => p :: bodyWrites cs
  | _ :: cs => bodyWrites cs

/-- The credentials passed to `Login`, in call order. -/
def logins : List FtpOp → List (String × String)
  | [] => []
  | .Login u p :: ops => (u, p) :: logins ops
  | _ :: ops => logins ops

/-- The paths passed to `Retr`, in call order. -/
def retrs : List FtpOp → List String
  | [] => []
  | .Retr path :: ops => path :: retrs ops
  | _ :: ops => retrs ops

/-- The login step of the handler for a configuration: one `Login` call when
`User` is not the empty string, nothing otherwise. -/
def HTTP4Ftp.loginOps (h4f : HTTP4Ftp) : List FtpOp :=
  if h4f.User ≠ "" then [FtpOp.Login h4f.User h4f.Pass] else []

/-- The sink as the handler leaves it just before the copy starts. -/
def http.ResponseWriter.beforeCopy (w : http.ResponseWriter) : http.ResponseWriter :=
  (w.WriteHeader http.StatusOK).HeaderAdd "Content-Type" "application/octet-stream"

/-- A fresh sink as the host hands it over: nothing committed, nothing
written, with the given headers already present and the given write script. -/
def http.ResponseWriter.fresh (header : List (String × String)) (script : List WriteResult) :
    http.ResponseWriter :=
  ⟨[], header, none, [], [], script⟩

/-! ## Sample environment -/

/-- A server holding `/pub/readme.txt` with content `hello`, delivered in two
reads; every other path is refused. -/
def sampleEnv : FtpEnv where
  Dial := fun _ _ => none
  Login := fun _ _ => none
  Retr := fun path =>
    if path = "/pub/readme.txt" then .ok ⟨[bytesOf "hel", bytesOf "lo"], none⟩
    else .error (.errorString "550 File not found")

/-- The configuration of the spec's concrete scenarios. -/
def sampleConfig : HTTP4Ftp :=
  ⟨"127.0.0.1:21", "", "", 0, false, false, false⟩

/-- A configuration with credentials. -/
def authConfig : HTTP4Ftp :=
  ⟨"ftp.example.org:21", "alice", "s3cret", 3 * time.Second, true, false, true⟩

/-- A server that cannot be reached. -/
def unreachableEnv : FtpEnv where
  Dial := fun _ _ => some (.errorString "dial tcp 127.0.0.1:21: connect: connection refused")
  Login := fun _ _ => none
  Retr := fun _ => .error (.errorString "550 File not found")

/-- A server that rejects every login. -/
def rejectingEnv : FtpEnv where
  Dial := fun _ _ => none
  Login := fun _ _ => some (.errorString "530 Login incorrect")
  Retr := fun _ => .ok ⟨[bytesOf "hello"], none⟩

/-- A server whose data connection drops after the first three bytes of
`hello`. -/
def droppingEnv : FtpEnv where
  Dial := fun _ _ => none
  Login := fun _ _ => none
  Retr := fun _ =>
    .ok ⟨[bytesOf "hel"], some (.errorString "read: connection reset by peer", bytesOf "lo")⟩

/-! ## The sink methods, field by field -/

theorem commit_of_committed (w : http.ResponseWriter) (c s : Nat) (h : w.status = some s) :
    w.commit c = w := by
  unfold http.ResponseWriter.commit
  rw [h]

theorem commit_fields (w : http.ResponseWriter) (c : Nat) :
    (w.commit c).calls = w.calls ∧ (w.commit c).header = w.header ∧
    (w.commit c).body = w.body ∧ (w.commit c).script = w.script := by
  unfold http.ResponseWriter.commit
  cases w.status <;> simp

theorem Write_calls (w : http.ResponseWriter) (p : List Byte) :
    (w.Write p).2.calls = w.calls ++ [SinkCall.Write p] := by
  simp [http.ResponseWriter.Write, (commit_fields w http.StatusOK).1]

theorem Write_header (w : http.ResponseWriter) (p : List Byte) :
    (w.Write p).2.header = w.header := by
  simp [http.ResponseWriter.Write, (commit_fields w http.StatusOK).2.1]

theorem Write_body (w : http.ResponseWriter) (p : List Byte) :
    (w.Write p).2.body = w.body ++ p.take (w.Write p).1.n.toNat := by
  simp [http.ResponseWriter.Write, (commit_fields w http.StatusOK).2.2.1]

theorem Write_committed (w : http.ResponseWriter) (p : List Byte) (s : Nat)
    (h : w.status = some s) :
    (w.Write p).2.status = some s ∧ (w.Write p).2.sent = w.sent := by
  simp [http.ResponseWriter.Write, commit_of_committed w http.StatusOK s h, h]

/-! ## The copy loop -/

theorem copyWrite_nil (dst : http.ResponseWriter) : io.copyWrite dst [] = (none, dst) := by
  simp [io.copyWrite]

theorem copyWrite_snd (dst : http.ResponseWriter) (p : List Byte) (hp : p ≠ []) :
    (io.copyWrite dst p).2 = (dst.Write p).2 := by
  have hlen : p.length > 0 := List.length_pos.mpr hp
  rcases h : dst.Write p with ⟨res, dst1⟩
  simp only [io.copyWrite, hlen, if_true, h]
  split <;> (try split) <;> (try split) <;> rfl

theorem copyWrite_ok (dst : http.ResponseWriter) (p : List Byte) (hp : p ≠ [])
    (h : (io.copyWrite dst p).1 = none) : (dst.Write p).1.n = p.length := by
  have hlen : p.length > 0 := List.length_pos.mpr hp
  rcases hw : dst.Write p with ⟨res, dst1⟩
  simp only [io.copyWrite, hlen, if_true, hw] at h
  by_cases hbad : res.n < 0 ∨ (p.length : Int) < res.n
  · simp only [hbad, if_true] at h
    cases hres : res.err <;> simp [hres] at h
  · simp only [hbad, if_false] at h
    cases hres : res.err with
    | some e => simp [hres] at h
    | none =>
      simp only [hres] at h
      by_cases hne : (p.length : Int) ≠ res.n
      · simp [hne] at h
      · simp only [ne_eq, not_not] at hne
        exact hne.symm

theorem copyWrite_body (dst : http.ResponseWriter) (p : List Byte) :
    ∃ k, (io.copyWrite dst p).2.body = dst.body ++ p.take k := by
  by_cases hp : p = []
  · subst hp
    exact ⟨0, by simp [copyWrite_nil]⟩
  · exact ⟨_, by rw [copyWrite_snd dst p hp, Write_body]⟩

theorem copyWrite_body_ok (dst : http.ResponseWriter) (p : List Byte)
    (h : (io.copyWrite dst p).1 = none) : (io.copyWrite dst p).2.body = dst.body ++ p := by
  by_cases hp : p = []
  · subst hp
    simp [copyWrite_nil]
  · rw [copyWrite_snd dst p hp, Write_body, copyWrite_ok dst p hp h]
    simp

theorem copyWrite_calls (dst : http.ResponseWriter) (p : List Byte) :
    (io.copyWrite dst p).2.calls = dst.calls ++ ([p].filter (· ≠ [])).map SinkCall.Write := by
  by_cases hp : p = []
  · subst hp
    simp [copyWrite_nil]
  · rw [copyWrite_snd dst p hp, Write_calls]
    simp [hp]

theorem copyWrite_header (dst : http.ResponseWriter) (p : List Byte) :
    (io.copyWrite dst p).2.header = dst.header := by
  by_cases hp : p = []
  · subst hp
    simp [copyWrite_nil]
  · rw [copyWrite_snd dst p hp, Write_header]

theorem copyWrite_committed (dst : http.ResponseWriter) (p : List Byte) (s : Nat)
    (h : dst.status = some s) :
    (io.copyWrite dst p).2.status = some s ∧ (io.copyWrite dst p).2.sent = dst.sent := by
  by_cases hp : p = []
  · subst hp
    simp [copyWrite_nil, h]
  · rw [copyWrite_snd dst p hp]
    exact Write_committed dst p s h

theorem copyLoop_cons (failure : Option (GoError × List Byte)) (p : List Byte)
    (reads : List (List Byte)) (dst : http.ResponseWriter) :
    io.copyLoop failure (p :: reads) dst =
      (match (io.copyWrite dst p).1 with
        | some e => (some e, (io.copyWrite dst p).2)
        | none => io.copyLoop failure reads (io.copyWrite dst p).2) := by
  rcases h : io.copyWrite dst p with ⟨e, dst1⟩
  cases e <;> simp [io.copyLoop, h]

/-- The sink calls of the copy loop are `Write` calls only. -/
theorem copyLoop_calls (failure : Option (GoError × List Byte)) (reads : List (List Byte))
    (dst : http.ResponseWriter) :
    ∃ ws : List (List Byte),
      (io.copyLoop failure reads dst).2.calls = dst.calls ++ ws.map SinkCall.Write := by
  induction reads generalizing dst with
  | nil =>
    refine ⟨[], ?_⟩
    cases failure <;> simp [io.copyLoop]
  | cons p reads ih =>
    rw [copyLoop_cons]
    cases h : (io.copyWrite dst p).1 with
    | some e => exact ⟨[p].filter (· ≠ []), by simp only [copyWrite_calls]⟩
    | none =>
      obtain ⟨ws, hws⟩ := ih (io.copyWrite dst p).2
      refine ⟨[p].filter (· ≠ []) ++ ws, ?_⟩
      simp only [hws, copyWrite_calls, List.map_append, List.append_assoc]

/-- The copy loop leaves the header map alone. -/
theorem copyLoop_header (failure : Option (GoError × List Byte)) (reads : List (List Byte))
    (dst : http.ResponseWriter) :
    (io.copyLoop failure reads dst).2.header = dst.header := by
  induction reads generalizing dst with
  | nil => cases failure <;> simp [io.copyLoop]
  | cons p reads ih =>
    rw [copyLoop_cons]
    cases h : (io.copyWrite dst p).1 with
    | some e => simp only [copyWrite_header]
    | none => simp only [ih, copyWrite_header]

/-- The copy loop cannot change a committed status or the committed headers. -/
theorem copyLoop_committed (failure : Option (GoError × List Byte)) (reads : List (List Byte))
    (dst : http.ResponseWriter) (s : Nat) (hs : dst.status = some s) :
    (io.copyLoop failure reads dst).2.status = some s ∧
    (io.copyLoop failure reads dst).2.sent = dst.sent := by
  induction reads generalizing dst with
  | nil => cases failure <;> simp [io.copyLoop, hs]
  | cons p reads ih =>
    rw [copyLoop_cons]
    have hc := copyWrite_committed dst p s hs
    cases h : (io.copyWrite dst p).1 with
    | some e => exact hc
    | none =>
      have := ih (io.copyWrite dst p).2 hc.1
      exact ⟨this.1, this.2.trans hc.2⟩

/-- The bytes the copy loop gets into the sink are a leading part of what the
source has to offer. -/
theorem copyLoop_body (failure : Option (GoError × List Byte)) (reads : List (List Byte))
    (dst : http.ResponseWriter) :
    ∃ written rest, (io.copyLoop failure reads dst).2.body = dst.body ++ written ∧
      reads.flatten = written ++ rest := by
  induction reads generalizing dst with
  | nil =>
    refine ⟨[], [], ?_, by simp⟩
    cases failure <;> simp [io.copyLoop]
  | cons p reads ih =>
    rw [copyLoop_cons]
    cases h : (io.copyWrite dst p).1 with
    | some e =>
      obtain ⟨k, hk⟩ := copyWrite_body dst p
      exact ⟨p.take k, p.drop k ++ reads.flatten, hk, by
        rw [← List.append_assoc, List.take_append_drop, List.flatten_cons]⟩
    | none =>
      obtain ⟨written, rest, hb, hr⟩ := ih (io.copyWrite dst p).2
      refine ⟨p ++ written, rest, ?_, ?_⟩
      · simp only [hb, copyWrite_body_ok dst p h, List.append_assoc]
      · simp only [List.flatten_cons, hr, List.append_assoc]

/-- A copy loop that ends with a nil error has seen `io.EOF`, has written every
read that carried data, and the sink has accepted all of it. -/
theorem copyLoop_ok (failure : Option (GoError × List Byte)) (reads : List (List Byte))
    (dst : http.ResponseWriter) (h : (io.copyLoop failure reads dst).1 = none) :
    failure = none ∧
    (io.copyLoop failure reads dst).2.body = dst.body ++ reads.flatten ∧
    (io.copyLoop failure reads dst).2.calls =
      dst.calls ++ (reads.filter (· ≠ [])).map SinkCall.Write := by
  induction reads generalizing dst with
  | nil =>
    cases failure with
    | none => simp [io.copyLoop]
    | some f => simp [io.copyLoop] at h
  | cons p reads ih =>
    rw [copyLoop_cons] at h ⊢
    cases hw : (io.copyWrite dst p).1 with
    | some e => simp [hw] at h
    | none =>
      simp only [hw] at h ⊢
      obtain ⟨hf, hb, hc⟩ := ih (io.copyWrite dst p).2 h
      refine ⟨hf, ?_, ?_⟩
      · simp only [hb, copyWrite_body_ok dst p hw, List.flatten_cons, List.append_assoc]
      · rw [hc, copyWrite_calls]
        by_cases hp : p = [] <;> simp [hp]

/-! ## The exit paths of the handler -/

theorem serve_dial_failed (h4f : HTTP4Ftp) (env : FtpEnv) (w : http.ResponseWriter)
    (r : Request) (e : GoError) (hdial : env.Dial h4f.Addr h4f.dialOptions = some e) :
    h4f.ServeHTTP env w r =
      ⟨some (fmt.Errorf "dial ftp server error: " e), w,
        [FtpOp.Dial h4f.Addr h4f.dialOptions]⟩ := by
  simp [HTTP4Ftp.ServeHTTP, hdial]

theorem serve_login_failed (h4f : HTTP4Ftp) (env : FtpEnv) (w : http.ResponseWriter)
    (r : Request) (e : GoError) (hdial : env.Dial h4f.Addr h4f.dialOptions = none)
    (huser : h4f.User ≠ "") (hlogin : env.Login h4f.User h4f.Pass = some e) :
    h4f.ServeHTTP env w r =
      ⟨some (fmt.Errorf "ftp login error: " e), w,
        [FtpOp.Dial h4f.Addr h4f.dialOptions, FtpOp.Login h4f.User h4f.Pass]⟩ := by
  simp [HTTP4Ftp.ServeHTTP, hdial, huser, hlogin]

theorem serve_not_found (h4f : HTTP4Ftp) (env : FtpEnv) (w : http.ResponseWriter)
    (r : Request) (e : GoError) (hdial : env.Dial h4f.Addr h4f.dialOptions = none)
    (hlogin : h4f.User ≠ "" → env.Login h4f.User h4f.Pass = none)
    (hretr : env.Retr r.Path = .error e) :
    h4f.ServeHTTP env w r =
      ⟨some e, ((w.WriteHeader http.StatusNotFound).Write (bytesOf "Not Found")).2,
        FtpOp.Dial h4f.Addr h4f.dialOptions :: (h4f.loginOps ++ [FtpOp.Retr r.Path])⟩ := by
  by_cases huser : h4f.User = ""
  · simp [HTTP4Ftp.ServeHTTP, HTTP4Ftp.loginOps, hdial, huser, hretr]
  · simp [HTTP4Ftp.ServeHTTP, HTTP4Ftp.loginOps, hdial, huser, hlogin huser, hretr]

theorem serve_found (h4f : HTTP4Ftp) (env : FtpEnv) (w : http.ResponseWriter)
    (r : Request) (resp : ftp.Response) (hdial : env.Dial h4f.Addr h4f.dialOptions = none)
    (hlogin : h4f.User ≠ "" → env.Login h4f.User h4f.Pass = none)
    (hretr : env.Retr r.Path = .ok resp) :
    h4f.ServeHTTP env w r =
      ⟨(io.Copy w.beforeCopy resp).1, (io.Copy w.beforeCopy resp).2,
        FtpOp.Dial h4f.Addr h4f.dialOptions ::
          (h4f.loginOps ++ [FtpOp.Retr r.Path, FtpOp.Close])⟩ := by
  by_cases huser : h4f.User = ""
  · simp [HTTP4Ftp.ServeHTTP, HTTP4Ftp.loginOps, http.ResponseWriter.beforeCopy, hdial, huser,
      hretr]
  · simp [HTTP4Ftp.ServeHTTP, HTTP4Ftp.loginOps, http.ResponseWriter.beforeCopy, hdial, huser,
      hlogin huser, hretr]

/-! ## Validate -/

/-- C5: `Validate` returns a nil error and changes nothing but a zero
`DialTimeout`, which becomes 5 seconds (5,000,000,000 ns); a nonzero timeout,
negative ones included, and every other field stay as they are; validating
twice is the same as validating once. -/
theorem validate_defaults_timeout (c : HTTP4Ftp) :
    c.Validate.2 = none ∧
    c.Validate.1 =
      { c with DialTimeout := if c.DialTimeout = 0 then 5000000000 else c.DialTimeout } ∧
    c.Validate.1.Addr = c.Addr ∧ c.Validate.1.User = c.User ∧ c.Validate.1.Pass = c.Pass ∧
    c.Validate.1.DisabledEPSV = c.DisabledEPSV ∧ c.Validate.1.DisabledMLSD = c.DisabledMLSD ∧
    c.Validate.1.DisableUTF8 = c.DisableUTF8 ∧
    c.Validate.1.Validate = c.Validate := by
  unfold HTTP4Ftp.Validate
  by_cases h : c.DialTimeout = 0
  · simp [h, time.Second]
  · simp [h]

/-! ## Dial and login failures -/

/-- C6: when the dial fails with `e`, the handler returns an error that wraps
`e` with the message "dial ftp server error: " followed by the message of
`e`, leaves the response sink untouched, and performs no FTP operation after
the dial (no login, no retrieve). -/
theorem serveHTTP_dial_error (h4f : HTTP4Ftp) (env : FtpEnv) (w : http.ResponseWriter)
    (r : Request) (e : GoError) (hdial : env.Dial h4f.Addr h4f.dialOptions = some e) :
    (∃ err, (h4f.ServeHTTP env w r).err = some err ∧ err.Unwrap = some e ∧
      err.Error = "dial ftp server error: " ++ e.Error) ∧
    (h4f.ServeHTTP env w r).w = w ∧
    (h4f.ServeHTTP env w r).ftp = [FtpOp.Dial h4f.Addr h4f.dialOptions] ∧
    logins (h4f.ServeHTTP env w r).ftp = [] ∧ retrs (h4f.ServeHTTP env w r).ftp = [] := by
  rw [serve_dial_failed h4f env w r e hdial]
  exact ⟨⟨_, rfl, rfl, rfl⟩, rfl, rfl, rfl, rfl⟩

theorem serveHTTP_dial_error_witness :
    unreachableEnv.Dial sampleConfig.Addr sampleConfig.dialOptions =
        some (.errorString "dial tcp 127.0.0.1:21: connect: connection refused") ∧
    (sampleConfig.ServeHTTP unreachableEnv (.fresh [] []) ⟨"/pub/readme.txt"⟩).w = .fresh [] [] ∧
    (sampleConfig.ServeHTTP unreachableEnv (.fresh [] []) ⟨"/pub/readme.txt"⟩).ftp =
        [FtpOp.Dial sampleConfig.Addr sampleConfig.dialOptions] :=
  ⟨rfl,
   (serveHTTP_dial_error sampleConfig unreachableEnv (.fresh [] []) ⟨"/pub/readme.txt"⟩
      (.errorString "dial tcp 127.0.0.1:21: connect: connection refused") rfl).2.1,
   (serveHTTP_dial_error sampleConfig unreachableEnv (.fresh [] []) ⟨"/pub/readme.txt"⟩
      (.errorString "dial tcp 127.0.0.1:21: connect: connection refused") rfl).2.2.1⟩

/-- C7: with a non-empty `User`, a successful dial and a login that fails
with `e`, the handler returns an error that wraps `e` with the message
"ftp login error: " followed by the message of `e`, leaves the response sink
untouched, and issues no retrieve. -/
theorem serveHTTP_login_error (h4f : HTTP4Ftp) (env : FtpEnv) (w : http.ResponseWriter)
    (r : Request) (e : GoError) (huser : h4f.User ≠ "")
    (hdial : env.Dial h4f.Addr h4f.dialOptions = none)
    (hlogin : env.Login h4f.User h4f.Pass = some e) :
    (∃ err, (h4f.ServeHTTP env w r).err = some err ∧ err.Unwrap = some e ∧
      err.Error = "ftp login error: " ++ e.Error) ∧
    (h4f.ServeHTTP env w r).w = w ∧
    (h4f.ServeHTTP env w r).ftp =
      [FtpOp.Dial h4f.Addr h4f.dialOptions, FtpOp.Login h4f.User h4f.Pass] ∧
    retrs (h4f.ServeHTTP env w r).ftp = [] := by
  rw [serve_login_failed h4f env w r e hdial huser hlogin]
  exact ⟨⟨_, rfl, rfl, rfl⟩, rfl, rfl, rfl⟩

theorem serveHTTP_login_error_witness :
    authConfig.User ≠ "" ∧
    rejectingEnv.Dial authConfig.Addr authConfig.dialOptions = none ∧
    rejectingEnv.Login authConfig.User authConfig.Pass =
        some (.errorString "530 Login incorrect") ∧
    (authConfig.ServeHTTP rejectingEnv (.fresh [] []) ⟨"/pub/readme.txt"⟩).w = .fresh [] [] ∧
    retrs (authConfig.ServeHTTP rejectingEnv (.fresh [] []) ⟨"/pub/readme.txt"⟩).ftp = [] :=
  ⟨by decide, rfl, rfl,
   (serveHTTP_login_error authConfig rejectingEnv (.fresh [] []) ⟨"/pub/readme.txt"⟩
      (.errorString "530 Login incorrect") (by decide) rfl rfl).2.1,
   (serveHTTP_login_error authConfig rejectingEnv (.fresh [] []) ⟨"/pub/readme.txt"⟩
      (.errorString "530 Login incorrect") (by decide) rfl rfl).2.2.2⟩

/-! ## Reading the logs -/

theorem statusWrites_append (xs ys : List SinkCall) :
    statusWrites (xs ++ ys) = statusWrites xs ++ statusWrites ys := by
  induction xs with
  | nil => rfl
  | cons x xs ih => cases x <;> simp [statusWrites, ih]

theorem headerAdds_append (xs ys : List SinkCall) :
    headerAdds (xs ++ ys) = headerAdds xs ++ headerAdds ys := by
  induction xs with
  | nil => rfl
  | cons x xs ih => cases x <;> simp [headerAdds, ih]

theorem bodyWrites_append (xs ys : List SinkCall) :
    bodyWrites (xs ++ ys) = bodyWrites xs ++ bodyWrites ys := by
  induction xs with
  | nil => rfl
  | cons x xs ih => cases x <;> simp [bodyWrites, ih]

theorem statusWrites_map_Write (ws : List (List Byte)) :
    statusWrites (ws.map SinkCall.Write) = [] := by
  induction ws with
  | nil => rfl
  | cons x xs ih => simp [statusWrites, ih]

theorem headerAdds_map_Write (ws : List (List Byte)) :
    headerAdds (ws.map SinkCall.Write) = [] := by
  induction ws with
  | nil => rfl
  | cons x xs ih => simp [headerAdds, ih]

theorem bodyWrites_map_Write (ws : List (List Byte)) :
    bodyWrites (ws.map SinkCall.Write) = ws := by
  induction ws with
  | nil => rfl
  | cons x xs ih => simp [bodyWrites, ih]

theorem logins_loginOps (h4f : HTTP4Ftp) :
    logins h4f.loginOps = if h4f.User = "" then [] else [(h4f.User, h4f.Pass)] := by
  unfold HTTP4Ftp.loginOps
  by_cases h : h4f.User = "" <;> simp [h, logins]

theorem logins_append (xs ys : List FtpOp) : logins (xs ++ ys) = logins xs ++ logins ys := by
  induction xs with
  | nil => rfl
  | cons x xs ih => cases x <;> simp [logins, ih]

theorem retrs_append (xs ys : List FtpOp) : retrs (xs ++ ys) = retrs xs ++ retrs ys := by
  induction xs with
  | nil => rfl
  | cons x xs ih => cases x <;> simp [retrs, ih]

theorem retrs_loginOps (h4f : HTTP4Ftp) : retrs h4f.loginOps = [] := by
  unfold HTTP4Ftp.loginOps
  by_cases h : h4f.User = "" <;> simp [h, retrs]

theorem beforeCopy_fields (w : http.ResponseWriter) :
    w.beforeCopy.calls = w.calls ++
      [SinkCall.WriteHeader http.StatusOK,
       SinkCall.HeaderAdd "Content-Type" "application/octet-stream"] ∧
    w.beforeCopy.body = w.body ∧
    w.beforeCopy.header = w.header ++ [("Content-Type", "application/octet-stream")] := by
  simp [http.ResponseWriter.beforeCopy, http.ResponseWriter.HeaderAdd,
    http.ResponseWriter.WriteHeader, commit_fields]

theorem beforeCopy_committed (w : http.ResponseWriter) (hw : w.status = none) :
    w.beforeCopy.status = some http.StatusOK ∧ w.beforeCopy.sent = w.header := by
  simp [http.ResponseWriter.beforeCopy, http.ResponseWriter.HeaderAdd,
    http.ResponseWriter.WriteHeader, http.ResponseWriter.commit, hw]

theorem notFound_fields (w : http.ResponseWriter) :
    ((w.WriteHeader http.StatusNotFound).Write (bytesOf "Not Found")).2.calls =
      w.calls ++ [SinkCall.WriteHeader http.StatusNotFound,
                  SinkCall.Write (bytesOf "Not Found")] ∧
    ((w.WriteHeader http.StatusNotFound).Write (bytesOf "Not Found")).2.header = w.header := by
  simp [Write_calls, Write_header, http.ResponseWriter.WriteHeader, commit_fields]

theorem notFound_committed (w : http.ResponseWriter) (hw : w.status = none) :
    ((w.WriteHeader http.StatusNotFound).Write (bytesOf "Not Found")).2.status =
      some http.StatusNotFound ∧
    ((w.WriteHeader http.StatusNotFound).Write (bytesOf "Not Found")).2.sent = w.header := by
  have h : (w.WriteHeader http.StatusNotFound).status = some http.StatusNotFound := by
    simp [http.ResponseWriter.WriteHeader, http.ResponseWriter.commit, hw]
  have hs : (w.WriteHeader http.StatusNotFound).sent = w.header := by
    simp [http.ResponseWriter.WriteHeader, http.ResponseWriter.commit, hw]
  have := Write_committed (w.WriteHeader http.StatusNotFound) (bytesOf "Not Found") _ h
  exact ⟨this.1, this.2.trans hs⟩

/-! ## Retrieval failure -/

/-- C3: when the dial (and the login, if attempted) succeeds and the retrieve
fails, whatever the error, the handler calls the sink exactly twice:
`WriteHeader(404)` and then one `Write` of the 9 bytes "Not Found".  It adds
no header, it writes no status other than 404 (in particular never 200), and
on a sink that had nothing committed the committed status is 404; a sink that
accepts its writes ends up with exactly "Not Found" appended to its body. -/
theorem serveHTTP_not_found_response (h4f : HTTP4Ftp) (env : FtpEnv)
    (w : http.ResponseWriter) (r : Request) (e : GoError)
    (hdial : env.Dial h4f.Addr h4f.dialOptions = none)
    (hlogin : h4f.User ≠ "" → env.Login h4f.User h4f.Pass = none)
    (hretr : env.Retr r.Path = .error e) :
    (h4f.ServeHTTP env w r).w.calls =
      w.calls ++ [SinkCall.WriteHeader 404, SinkCall.Write (bytesOf "Not Found")] ∧
    (bytesOf "Not Found").length = 9 ∧
    statusWrites (h4f.ServeHTTP env w r).w.calls = statusWrites w.calls ++ [404] ∧
    bodyWrites (h4f.ServeHTTP env w r).w.calls = bodyWrites w.calls ++ [bytesOf "Not Found"] ∧
    headerAdds (h4f.ServeHTTP env w r).w.calls = headerAdds w.calls ∧
    (h4f.ServeHTTP env w r).w.header = w.header ∧
    (w.status = none →
      (h4f.ServeHTTP env w r).w.status = some 404 ∧ (h4f.ServeHTTP env w r).w.sent = w.header) ∧
    (w.script = [] → (h4f.ServeHTTP env w r).w.body = w.body ++ bytesOf "Not Found") := by
  rw [serve_not_found h4f env w r e hdial hlogin hretr]
  have hf := notFound_fields w
  refine ⟨hf.1, by decide, ?_, ?_, ?_, hf.2, fun hw => notFound_committed w hw, ?_⟩
  · simp only [hf.1, statusWrites_append]
    rfl
  · simp only [hf.1, bodyWrites_append]
    rfl
  · simp only [hf.1, headerAdds_append]
    simp [headerAdds]
  · intro hs
    simp only [Write_body]
    simp [http.ResponseWriter.Write, http.ResponseWriter.WriteHeader, commit_fields, hs]

theorem serveHTTP_not_found_response_witness :
    sampleEnv.Dial sampleConfig.Addr sampleConfig.dialOptions = none ∧
    sampleEnv.Retr "/missing.txt" = .error (.errorString "550 File not found") ∧
    (sampleConfig.ServeHTTP sampleEnv (.fresh [] []) ⟨"/missing.txt"⟩).w.calls =
      [SinkCall.WriteHeader 404, SinkCall.Write (bytesOf "Not Found")] ∧
    (sampleConfig.ServeHTTP sampleEnv (.fresh [] []) ⟨"/missing.txt"⟩).w.status = some 404 ∧
    (sampleConfig.ServeHTTP sampleEnv (.fresh [] []) ⟨"/missing.txt"⟩).w.body =
      bytesOf "Not Found" :=
  ⟨rfl, rfl,
   (serveHTTP_not_found_response sampleConfig sampleEnv (.fresh [] []) ⟨"/missing.txt"⟩
      (.errorString "550 File not found") rfl (by decide) rfl).1,
   ((serveHTTP_not_found_response sampleConfig sampleEnv (.fresh [] []) ⟨"/missing.txt"⟩
      (.errorString "550 File not found") rfl (by decide) rfl).2.2.2.2.2.2.1 rfl).1,
   (serveHTTP_not_found_response sampleConfig sampleEnv (.fresh [] []) ⟨"/missing.txt"⟩
      (.errorString "550 File not found") rfl (by decide) rfl).2.2.2.2.2.2.2 rfl⟩

/-- Counterexample to C4 as stated: with the retrieve of `/missing.txt`
refused, the handler writes the 404 response and also returns the retrieval
error, not nil. -/
theorem serveHTTP_not_found_returns_error :
    sampleEnv.Dial sampleConfig.Addr sampleConfig.dialOptions = none ∧
    sampleEnv.Retr "/missing.txt" = .error (.errorString "550 File not found") ∧
    (sampleConfig.ServeHTTP sampleEnv (.fresh [] []) ⟨"/missing.txt"⟩).err =
      some (.errorString "550 File not found") ∧
    (sampleConfig.ServeHTTP sampleEnv (.fresh [] []) ⟨"/missing.txt"⟩).err ≠ none := by
  refine ⟨rfl, rfl, ?_, ?_⟩ <;> decide

/-- C4, amended: when the dial (and the login, if attempted) succeeds and the
retrieve fails with `e`, the handler writes the 404 response and returns `e`
itself, unwrapped, to its caller. -/
theorem serveHTTP_not_found_err (h4f : HTTP4Ftp) (env : FtpEnv)
    (w : http.ResponseWriter) (r : Request) (e : GoError)
    (hdial : env.Dial h4f.Addr h4f.dialOptions = none)
    (hlogin : h4f.User ≠ "" → env.Login h4f.User h4f.Pass = none)
    (hretr : env.Retr r.Path = .error e) :
    (h4f.ServeHTTP env w r).err = some e ∧
    statusWrites (h4f.ServeHTTP env w r).w.calls = statusWrites w.calls ++ [404] := by
  rw [serve_not_found h4f env w r e hdial hlogin hretr]
  refine ⟨rfl, ?_⟩
  simp only [(notFound_fields w).1, statusWrites_append]
  rfl

theorem serveHTTP_not_found_err_witness :
    authConfig.User ≠ "" ∧
    sampleEnv.Dial authConfig.Addr authConfig.dialOptions = none ∧
    sampleEnv.Login authConfig.User authConfig.Pass = none ∧
    sampleEnv.Retr "/no/such/file" = .error (.errorString "550 File not found") ∧
    (authConfig.ServeHTTP sampleEnv (.fresh [] []) ⟨"/no/such/file"⟩).err =
      some (.errorString "550 File not found") :=
  ⟨by decide, rfl, rfl, rfl,
   (serveHTTP_not_found_err authConfig sampleEnv (.fresh [] []) ⟨"/no/such/file"⟩
      (.errorString "550 File not found") rfl (fun _ => rfl) rfl).1⟩

/-! ## Successful retrieval -/

/-- C1: when the dial succeeds, the login (if attempted) succeeds, the
retrieve succeeds and the copy returns a nil error, the handler returns a nil
error, has issued exactly one retrieve, for the request path as it is, has
written exactly one status, 200, and has handed the stream's reads to the
sink in order, so that the sink's body has grown by exactly the content of
the remote file. -/
theorem serveHTTP_success (h4f : HTTP4Ftp) (env : FtpEnv) (w : http.ResponseWriter)
    (r : Request) (resp : ftp.Response)
    (hdial : env.Dial h4f.Addr h4f.dialOptions = none)
    (hlogin : h4f.User ≠ "" → env.Login h4f.User h4f.Pass = none)
    (hretr : env.Retr r.Path = .ok resp)
    (hcopy : (io.Copy w.beforeCopy resp).1 = none) :
    (h4f.ServeHTTP env w r).err = none ∧
    retrs (h4f.ServeHTTP env w r).ftp = [r.Path] ∧
    statusWrites (h4f.ServeHTTP env w r).w.calls = statusWrites w.calls ++ [200] ∧
    (w.status = none → (h4f.ServeHTTP env w r).w.status = some 200) ∧
    bodyWrites (h4f.ServeHTTP env w r).w.calls =
      bodyWrites w.calls ++ resp.reads.filter (· ≠ []) ∧
    (h4f.ServeHTTP env w r).w.body = w.body ++ resp.content := by
  rw [serve_found h4f env w r resp hdial hlogin hretr]
  obtain ⟨hf, hb, hc⟩ := copyLoop_ok resp.failure resp.reads w.beforeCopy hcopy
  have hbc := beforeCopy_fields w
  refine ⟨hcopy, ?_, ?_, ?_, ?_, ?_⟩
  · simp [retrs, retrs_append, retrs_loginOps]
  · show statusWrites (io.copyLoop resp.failure resp.reads w.beforeCopy).2.calls = _
    rw [hc, hbc.1, statusWrites_append, statusWrites_append, statusWrites_map_Write]
    simp [statusWrites, http.StatusOK]
  · intro hw
    exact (copyLoop_committed resp.failure resp.reads w.beforeCopy _
      (beforeCopy_committed w hw).1).1
  · show bodyWrites (io.copyLoop resp.failure resp.reads w.beforeCopy).2.calls = _
    rw [hc, hbc.1, bodyWrites_append, bodyWrites_append, bodyWrites_map_Write]
    simp [bodyWrites]
  · show (io.copyLoop resp.failure resp.reads w.beforeCopy).2.body = _
    rw [hb, hbc.2.1]
    simp [ftp.Response.content, hf]

theorem serveHTTP_success_witness :
    sampleEnv.Dial sampleConfig.Addr sampleConfig.dialOptions = none ∧
    sampleEnv.Retr "/pub/readme.txt" = .ok ⟨[bytesOf "hel", bytesOf "lo"], none⟩ ∧
    (io.Copy (http.ResponseWriter.fresh [] []).beforeCopy
      ⟨[bytesOf "hel", bytesOf "lo"], none⟩).1 = none ∧
    (sampleConfig.ServeHTTP sampleEnv (.fresh [] []) ⟨"/pub/readme.txt"⟩).err = none ∧
    (sampleConfig.ServeHTTP sampleEnv (.fresh [] []) ⟨"/pub/readme.txt"⟩).w.status = some 200 ∧
    (sampleConfig.ServeHTTP sampleEnv (.fresh [] []) ⟨"/pub/readme.txt"⟩).w.body =
      bytesOf "hello" :=
  ⟨rfl, rfl, by decide,
   (serveHTTP_success sampleConfig sampleEnv (.fresh [] []) ⟨"/pub/readme.txt"⟩
      ⟨[bytesOf "hel", bytesOf "lo"], none⟩ rfl (by decide) rfl (by decide)).1,
   (serveHTTP_success sampleConfig sampleEnv (.fresh [] []) ⟨"/pub/readme.txt"⟩
      ⟨[bytesOf "hel", bytesOf "lo"], none⟩ rfl (by decide) rfl (by decide)).2.2.2.1 rfl,
   (serveHTTP_success sampleConfig sampleEnv (.fresh [] []) ⟨"/pub/readme.txt"⟩
      ⟨[bytesOf "hel", bytesOf "lo"], none⟩ rfl (by decide) rfl (by decide)).2.2.2.2.2⟩

/-! ## Transfer failure -/

/-- C9: when the retrieve succeeds and the copy ends with the error `e`,
whether the stream or the sink failed, the handler returns `e`; the only
status it has written is 200, which on a sink that had nothing committed is
the committed status when the handler returns; and the bytes the sink has
accepted from the handler are a leading part of the remote file's content. -/
theorem serveHTTP_copy_error (h4f : HTTP4Ftp) (env : FtpEnv) (w : http.ResponseWriter)
    (r : Request) (resp : ftp.Response) (e : GoError)
    (hdial : env.Dial h4f.Addr h4f.dialOptions = none)
    (hlogin : h4f.User ≠ "" → env.Login h4f.User h4f.Pass = none)
    (hretr : env.Retr r.Path = .ok resp)
    (hcopy : (io.Copy w.beforeCopy resp).1 = some e) :
    (h4f.ServeHTTP env w r).err = some e ∧
    statusWrites (h4f.ServeHTTP env w r).w.calls = statusWrites w.calls ++ [200] ∧
    (w.status = none → (h4f.ServeHTTP env w r).w.status = some 200) ∧
    (∃ written rest, (h4f.ServeHTTP env w r).w.body = w.body ++ written ∧
      resp.content = written ++ rest) := by
  rw [serve_found h4f env w r resp hdial hlogin hretr]
  have hbc := beforeCopy_fields w
  refine ⟨hcopy, ?_, ?_, ?_⟩
  · obtain ⟨ws, hws⟩ := copyLoop_calls resp.failure resp.reads w.beforeCopy
    show statusWrites (io.copyLoop resp.failure resp.reads w.beforeCopy).2.calls = _
    rw [hws, hbc.1, statusWrites_append, statusWrites_append, statusWrites_map_Write]
    simp [statusWrites, http.StatusOK]
  · intro hw
    exact (copyLoop_committed resp.failure resp.reads w.beforeCopy _
      (beforeCopy_committed w hw).1).1
  · obtain ⟨written, rest, hb, hr⟩ := copyLoop_body resp.failure resp.reads w.beforeCopy
    refine ⟨written, rest ++ (match resp.failure with
      | none => []
      | some (_, unread) => unread), ?_, ?_⟩
    · show (io.copyLoop resp.failure resp.reads w.beforeCopy).2.body = _
      rw [hb, hbc.2.1]
    · simp only [ftp.Response.content, hr, List.append_assoc]

theorem serveHTTP_copy_error_witness :
    droppingEnv.Dial sampleConfig.Addr sampleConfig.dialOptions = none ∧
    (io.Copy (http.ResponseWriter.fresh [] []).beforeCopy
      ⟨[bytesOf "hel"], some (.errorString "read: connection reset by peer", bytesOf "lo")⟩).1
      = some (.errorString "read: connection reset by peer") ∧
    (sampleConfig.ServeHTTP droppingEnv (.fresh [] []) ⟨"/pub/readme.txt"⟩).err =
      some (.errorString "read: connection reset by peer") ∧
    (sampleConfig.ServeHTTP droppingEnv (.fresh [] []) ⟨"/pub/readme.txt"⟩).w.status = some 200 :=
  ⟨rfl, by decide,
   (serveHTTP_copy_error sampleConfig droppingEnv (.fresh [] []) ⟨"/pub/readme.txt"⟩
      ⟨[bytesOf "hel"], some (.errorString "read: connection reset by peer", bytesOf "lo")⟩
      (.errorString "read: connection reset by peer") rfl (by decide) rfl (by decide)).1,
   (serveHTTP_copy_error sampleConfig droppingEnv (.fresh [] []) ⟨"/pub/readme.txt"⟩
      ⟨[bytesOf "hel"], some (.errorString "read: connection reset by peer", bytesOf "lo")⟩
      (.errorString "read: connection reset by peer") rfl (by decide) rfl (by decide)).2.2.1 rfl⟩

/-! ## The login step -/

/-- C8: after a successful dial the handler logs in exactly when `User` is not
empty.  With an empty `User` (whatever `Pass` is) no login is attempted and
the retrieve for the request path is the first operation on the session.
With a non-empty `User` exactly one login is attempted, with the configured
`User` and `Pass`, right after the dial; nothing follows a failed login, and
the retrieve for the request path follows a successful one. -/
theorem serveHTTP_login_iff_user (h4f : HTTP4Ftp) (env : FtpEnv) (w : http.ResponseWriter)
    (r : Request) (hdial : env.Dial h4f.Addr h4f.dialOptions = none) :
    logins (h4f.ServeHTTP env w r).ftp =
      (if h4f.User = "" then [] else [(h4f.User, h4f.Pass)]) ∧
    (h4f.User = "" → ∃ rest, (h4f.ServeHTTP env w r).ftp =
      FtpOp.Dial h4f.Addr h4f.dialOptions :: FtpOp.Retr r.Path :: rest) ∧
    (h4f.User ≠ "" → ∃ rest, (h4f.ServeHTTP env w r).ftp =
        FtpOp.Dial h4f.Addr h4f.dialOptions :: FtpOp.Login h4f.User h4f.Pass :: rest ∧
      logins rest = [] ∧
      (∀ e, env.Login h4f.User h4f.Pass = some e → rest = []) ∧
      (env.Login h4f.User h4f.Pass = none → ∃ tail, rest = FtpOp.Retr r.Path :: tail)) := by
  by_cases huser : h4f.User = ""
  · have hlogin : h4f.User ≠ "" → env.Login h4f.User h4f.Pass = none :=
      fun h => absurd huser h
    cases hretr : env.Retr r.Path with
    | error e =>
      rw [serve_not_found h4f env w r e hdial hlogin hretr]
      simp [HTTP4Ftp.loginOps, huser, logins]
    | ok resp =>
      rw [serve_found h4f env w r resp hdial hlogin hretr]
      simp [HTTP4Ftp.loginOps, huser, logins]
  · cases hl : env.Login h4f.User h4f.Pass with
    | some e =>
      rw [serve_login_failed h4f env w r e hdial huser hl]
      simp [huser, logins]
    | none =>
      cases hretr : env.Retr r.Path with
      | error e =>
        rw [serve_not_found h4f env w r e hdial (fun _ => hl) hretr]
        simp [HTTP4Ftp.loginOps, huser, logins]
      | ok resp =>
        rw [serve_found h4f env w r resp hdial (fun _ => hl) hretr]
        simp [HTTP4Ftp.loginOps, huser, logins]

theorem serveHTTP_login_iff_user_witness :
    sampleEnv.Dial authConfig.Addr authConfig.dialOptions = none ∧
    logins (authConfig.ServeHTTP sampleEnv (.fresh [] []) ⟨"/pub/readme.txt"⟩).ftp =
      [("alice", "s3cret")] ∧
    (authConfig.ServeHTTP sampleEnv (.fresh [] []) ⟨"/pub/readme.txt"⟩).ftp =
      [FtpOp.Dial authConfig.Addr authConfig.dialOptions, FtpOp.Login "alice" "s3cret",
       FtpOp.Retr "/pub/readme.txt", FtpOp.Close] :=
  ⟨rfl,
   (serveHTTP_login_iff_user authConfig sampleEnv (.fresh [] []) ⟨"/pub/readme.txt"⟩ rfl).1,
   by decide⟩

/-! ## Release of the session and of the stream -/

/-- Counterexample to C10 as stated: after a successful dial the handler
returns without any `Quit` on the session, on the not-found path and on the
completed-transfer path alike. -/
theorem serveHTTP_session_not_released :
    sampleEnv.Dial sampleConfig.Addr sampleConfig.dialOptions = none ∧
    (sampleConfig.ServeHTTP sampleEnv (.fresh [] []) ⟨"/missing.txt"⟩).ftp =
      [FtpOp.Dial sampleConfig.Addr sampleConfig.dialOptions, FtpOp.Retr "/missing.txt"] ∧
    FtpOp.Quit ∉ (sampleConfig.ServeHTTP sampleEnv (.fresh [] []) ⟨"/missing.txt"⟩).ftp ∧
    (sampleConfig.ServeHTTP sampleEnv (.fresh [] []) ⟨"/pub/readme.txt"⟩).ftp =
      [FtpOp.Dial sampleConfig.Addr sampleConfig.dialOptions, FtpOp.Retr "/pub/readme.txt",
       FtpOp.Close] ∧
    FtpOp.Quit ∉ (sampleConfig.ServeHTTP sampleEnv (.fresh [] []) ⟨"/pub/readme.txt"⟩).ftp := by
  refine ⟨rfl, ?_, ?_, ?_, ?_⟩ <;> decide

/-- C10, amended: after a successful dial the handler issues no `Quit` on the
session on any exit path; whenever the retrieve succeeded, the stream is
closed exactly once, as the handler's last FTP operation (so after the copy),
whether the copy completed or failed; on the other paths no stream is
closed. -/
theorem serveHTTP_stream_closed_once (h4f : HTTP4Ftp) (env : FtpEnv)
    (w : http.ResponseWriter) (r : Request)
    (hdial : env.Dial h4f.Addr h4f.dialOptions = none) :
    FtpOp.Quit ∉ (h4f.ServeHTTP env w r).ftp ∧
    (∀ resp, (h4f.User ≠ "" → env.Login h4f.User h4f.Pass = none) →
      env.Retr r.Path = .ok resp →
      (h4f.ServeHTTP env w r).ftp.count FtpOp.Close = 1 ∧
      (h4f.ServeHTTP env w r).ftp.getLast? = some FtpOp.Close) ∧
    (∀ e, (h4f.User ≠ "" → env.Login h4f.User h4f.Pass = none) →
      env.Retr r.Path = .error e → (h4f.ServeHTTP env w r).ftp.count FtpOp.Close = 0) ∧
    (∀ e, h4f.User ≠ "" → env.Login h4f.User h4f.Pass = some e →
      (h4f.ServeHTTP env w r).ftp.count FtpOp.Close = 0) := by
  have hops : FtpOp.Quit ∉ h4f.loginOps ∧ h4f.loginOps.count FtpOp.Close = 0 := by
    unfold HTTP4Ftp.loginOps
    by_cases h : h4f.User = "" <;> simp [h]
  refine ⟨?_, ?_, ?_, ?_⟩
  · by_cases huser : h4f.User = ""
    · have hlogin : h4f.User ≠ "" → env.Login h4f.User h4f.Pass = none :=
        fun h => absurd huser h
      cases hretr : env.Retr r.Path with
      | error e =>
        rw [serve_not_found h4f env w r e hdial hlogin hretr]
        simp [hops.1]
      | ok resp =>
        rw [serve_found h4f env w r resp hdial hlogin hretr]
        simp [hops.1]
    · cases hl : env.Login h4f.User h4f.Pass with
      | some e =>
        rw [serve_login_failed h4f env w r e hdial huser hl]
        simp
      | none =>
        cases hretr : env.Retr r.Path with
        | error e =>
          rw [serve_not_found h4f env w r e hdial (fun _ => hl) hretr]
          simp [hops.1]
        | ok resp =>
          rw [serve_found h4f env w r resp hdial (fun _ => hl) hretr]
          simp [hops.1]
  · intro resp hlogin hretr
    rw [serve_found h4f env w r resp hdial hlogin hretr]
    refine ⟨?_, ?_⟩
    · simp [List.count_cons, List.count_append, hops.2]
    · rw [show FtpOp.Dial h4f.Addr h4f.dialOptions ::
          (h4f.loginOps ++ [FtpOp.Retr r.Path, FtpOp.Close]) =
          (FtpOp.Dial h4f.Addr h4f.dialOptions :: (h4f.loginOps ++ [FtpOp.Retr r.Path])) ++
            [FtpOp.Close] by simp]
      exact List.getLast?_concat _
  · intro e hlogin hretr
    rw [serve_not_found h4f env w r e hdial hlogin hretr]
    simp [List.count_cons, List.count_append, hops.2]
  · intro e huser hl
    rw [serve_login_failed h4f env w r e hdial huser hl]
    simp [List.count_cons]

theorem serveHTTP_stream_closed_once_witness :
    droppingEnv.Dial authConfig.Addr authConfig.dialOptions = none ∧
    FtpOp.Quit ∉ (authConfig.ServeHTTP droppingEnv (.fresh [] []) ⟨"/pub/readme.txt"⟩).ftp ∧
    (authConfig.ServeHTTP droppingEnv (.fresh [] []) ⟨"/pub/readme.txt"⟩).ftp.count
      FtpOp.Close = 1 :=
  ⟨rfl,
   (serveHTTP_stream_closed_once authConfig droppingEnv (.fresh [] []) ⟨"/pub/readme.txt"⟩
      rfl).1,
   ((serveHTTP_stream_closed_once authConfig droppingEnv (.fresh [] []) ⟨"/pub/readme.txt"⟩
      rfl).2.1 _ (fun _ => rfl) rfl).1⟩

/-! ## The Content-Type header -/

/-- On the success path the header set committed with the status is the one
the sink held before the handler ran: the handler's `Content-Type` is added to
the header map only after the commit. -/
theorem serveHTTP_sent_header (h4f : HTTP4Ftp) (env : FtpEnv) (w : http.ResponseWriter)
    (r : Request) (resp : ftp.Response)
    (hdial : env.Dial h4f.Addr h4f.dialOptions = none)
    (hlogin : h4f.User ≠ "" → env.Login h4f.User h4f.Pass = none)
    (hretr : env.Retr r.Path = .ok resp) (hw : w.status = none) :
    (h4f.ServeHTTP env w r).w.sent = w.header ∧
    (h4f.ServeHTTP env w r).w.header =
      w.header ++ [("Content-Type", "application/octet-stream")] := by
  rw [serve_found h4f env w r resp hdial hlogin hretr]
  have hc := beforeCopy_committed w hw
  refine ⟨?_, ?_⟩
  · exact (copyLoop_committed resp.failure resp.reads w.beforeCopy _ hc.1).2.trans hc.2
  · exact (copyLoop_header resp.failure resp.reads w.beforeCopy).trans (beforeCopy_fields w).2.2

/-- C2, the code at the scenario of the spec (`/pub/readme.txt` holds `hello`,
no credentials): the handler calls `WriteHeader(200)` first and
`Header().Add("Content-Type", "application/octet-stream")` second, so the
header set committed with status 200 is empty and holds no `Content-Type`;
the header reaches only the header map, after the commit and before the first
body write. -/
theorem serveHTTP_content_type_after_commit :
    (sampleConfig.ServeHTTP sampleEnv (.fresh [] []) ⟨"/pub/readme.txt"⟩).w.calls =
      [SinkCall.WriteHeader 200,
       SinkCall.HeaderAdd "Content-Type" "application/octet-stream",
       SinkCall.Write (bytesOf "hel"), SinkCall.Write (bytesOf "lo")] ∧
    (sampleConfig.ServeHTTP sampleEnv (.fresh [] []) ⟨"/pub/readme.txt"⟩).w.status = some 200 ∧
    (sampleConfig.ServeHTTP sampleEnv (.fresh [] []) ⟨"/pub/readme.txt"⟩).w.sent = [] ∧
    (sampleConfig.ServeHTTP sampleEnv (.fresh [] []) ⟨"/pub/readme.txt"⟩).w.header =
      [("Content-Type", "application/octet-stream")] ∧
    (sampleConfig.ServeHTTP sampleEnv (.fresh [] []) ⟨"/pub/readme.txt"⟩).w.body =
      bytesOf "hello" := by
  refine ⟨?_, ?_, ?_, ?_, ?_⟩ <;> decide

end CaddyFtp
